import Mathlib

/-!
Verification of the Kelly-criterion bet-sizing module (`bet_sizing_app.py`).

The numeric functions are embedded over the rationals. Python raises
`ZeroDivisionError` on division by zero, so division is modelled by a
fallible `pydiv` returning `Option`, and every function whose body can
divide by zero returns `Option` as well.
-/

namespace BetSizing

/-- Python division: raises (here: `none`) when the denominator is zero. -/
def pydiv (a b : ℚ) : Option ℚ :=
  if b = 0 then none else some (a / b)

/-- Embedding of `american_to_net_odds`: if the moneyline is positive the net
odds are `ml / 100`, otherwise `100 / |ml|` (which divides by zero at `ml = 0`). -/
def american_to_net_odds (american_ml : ℚ) : Option ℚ :=
  if american_ml > 0 then pydiv american_ml 100
  else pydiv 100 |american_ml|

/-- Embedding of `kelly_fraction`: `max 0 (prob - (1 - prob) / net_odds)`,
failing when `net_odds = 0`. -/
def kelly_fraction (prob net_odds : ℚ) : Option ℚ :=
  (pydiv (1 - prob) net_odds).map fun q => max 0 (prob - q)

/-- Embedding of `recommended_bet_size`: converts the moneyline, computes the
raw Kelly fraction, scales it by `fraction_kelly` and the bankroll, caps the
stake at `max_bet_fraction * morning_bank`, and returns the pair
`(stake, raw kelly fraction)`. -/
def recommended_bet_size (prob american_ml fraction_kelly morning_bank
    max_bet_fraction : ℚ) : Option (ℚ × ℚ) := do
  let b ← american_to_net_odds american_ml
  let kf ← kelly_fraction prob b
  let raw_bet := fraction_kelly * kf * morning_bank
  let cap := max_bet_fraction * morning_bank
  return (min raw_bet cap, kf)

/-- Embedding of the calculation performed by `main` on a button press: the
away probability is `1 - model_prob_home`, and the home and away
recommendations are two calls to `recommended_bet_size`. -/
def main_calc (home_ml away_ml fraction_k model_prob_home morning_bank
    max_bet_frac : ℚ) : Option ((ℚ × ℚ) × (ℚ × ℚ)) := do
  let p_away := 1 - model_prob_home
  let home ← recommended_bet_size model_prob_home home_ml fraction_k
    morning_bank max_bet_frac
  let away ← recommended_bet_size p_away away_ml fraction_k
    morning_bank max_bet_frac
  return (home, away)

/-! Helper lemmas shared by the claim theorems. -/

lemma pydiv_of_ne (a b : ℚ) (hb : b ≠ 0) : pydiv a b = some (a / b) := by
  simp [pydiv, hb]

lemma american_to_net_odds_pos (m : ℚ) (hm : 0 < m) :
    american_to_net_odds m = some (m / 100) := by
  rw [american_to_net_odds, if_pos hm, pydiv_of_ne]
  norm_num

lemma american_to_net_odds_neg (m : ℚ) (hm : m < 0) :
    american_to_net_odds m = some (100 / |m|) := by
  rw [american_to_net_odds, if_neg (not_lt.mpr hm.le), pydiv_of_ne]
  exact abs_ne_zero.mpr hm.ne

lemma american_to_net_odds_some (m : ℚ) (hm : m ≠ 0) :
    ∃ b, american_to_net_odds m = some b ∧ 0 < b := by
  rcases hm.lt_or_lt with h | h
  · exact ⟨100 / |m|, american_to_net_odds_neg m h,
      div_pos (by norm_num) (abs_pos.mpr h.ne)⟩
  · exact ⟨m / 100, american_to_net_odds_pos m h, div_pos h (by norm_num)⟩

lemma kelly_fraction_of_ne (p b : ℚ) (hb : b ≠ 0) :
    kelly_fraction p b = some (max 0 (p - (1 - p) / b)) := by
  simp [kelly_fraction, pydiv_of_ne _ _ hb]

lemma recommended_bet_size_eq (prob ml k B f b : ℚ)
    (hb : american_to_net_odds ml = some b) (hbne : b ≠ 0) :
    recommended_bet_size prob ml k B f =
      some (min (k * max 0 (prob - (1 - prob) / b) * B) (f * B),
        max 0 (prob - (1 - prob) / b)) := by
  simp [recommended_bet_size, hb, kelly_fraction_of_ne _ _ hbne]

/-- Claim C1: for every probability, nonzero moneyline, multiplier, bankroll
and max bet fraction, `recommended_bet_size` returns the pair consisting of
the scaled Kelly stake capped at `f * B` and the raw Kelly fraction
unchanged. -/
theorem rbs_returns_capped_kelly_pair (prob ml k B f : ℚ) (hml : ml ≠ 0) :
    ∃ b kf, american_to_net_odds ml = some b ∧ kelly_fraction prob b = some kf ∧
      recommended_bet_size prob ml k B f = some (min (k * kf * B) (f * B), kf) := by
  obtain ⟨b, hb, hbpos⟩ := american_to_net_odds_some ml hml
  exact ⟨b, max 0 (prob - (1 - prob) / b), hb,
    kelly_fraction_of_ne _ _ hbpos.ne.symm,
    recommended_bet_size_eq prob ml k B f b hb hbpos.ne.symm⟩

/-- Witness for C1 at prob = 0.55, ml = +100, k = 1, B = 1000, f = 0.5. -/
theorem rbs_returns_capped_kelly_pair_witness :
    ∃ b kf, american_to_net_odds 100 = some b ∧
      kelly_fraction (11/20) b = some kf ∧
      recommended_bet_size (11/20) 100 1 1000 (1/2) =
        some (min (1 * kf * 1000) ((1/2) * 1000), kf) :=
  rbs_returns_capped_kelly_pair (11/20) 100 1 1000 (1/2) (by norm_num)

/-- Claim C2: for a positive moneyline the net odds are `m / 100`, for a
negative moneyline they are `100 / |m|`, and in both cases the result is
strictly positive. -/
theorem american_to_net_odds_spec (m : ℚ) :
    (0 < m → american_to_net_odds m = some (m / 100) ∧ 0 < m / 100) ∧
    (m < 0 → american_to_net_odds m = some (100 / |m|) ∧ 0 < 100 / |m|) := by
  constructor
  · intro hm
    exact ⟨american_to_net_odds_pos m hm, div_pos hm (by norm_num)⟩
  · intro hm
    exact ⟨american_to_net_odds_neg m hm,
      div_pos (by norm_num) (abs_pos.mpr hm.ne)⟩

/-- Witness for C2 at ml = +150 and ml = -130. -/
theorem american_to_net_odds_spec_witness :
    (american_to_net_odds 150 = some (150 / 100) ∧ 0 < (150:ℚ) / 100) ∧
    (american_to_net_odds (-130) = some (100 / |(-130:ℚ)|) ∧
      0 < 100 / |(-130:ℚ)|) :=
  ⟨(american_to_net_odds_spec 150).1 (by norm_num),
   (american_to_net_odds_spec (-130)).2 (by norm_num)⟩

/-- Claim C3: for net odds `b > 0`, `kelly_fraction prob b` equals
`prob - (1 - prob) / b` when that quantity is nonnegative and `0` when it is
negative. -/
theorem kelly_fraction_formula (prob b : ℚ) (hb : 0 < b) :
    (0 ≤ prob - (1 - prob) / b →
      kelly_fraction prob b = some (prob - (1 - prob) / b)) ∧
    (prob - (1 - prob) / b < 0 → kelly_fraction prob b = some 0) := by
  constructor
  · intro h
    rw [kelly_fraction_of_ne _ _ hb.ne.symm, max_eq_right h]
  · intro h
    rw [kelly_fraction_of_ne _ _ hb.ne.symm, max_eq_left h.le]

/-- Witness for C3: positive edge at prob = 0.55, b = 1; no edge at
prob = 0.4, b = 1. -/
theorem kelly_fraction_formula_witness :
    kelly_fraction (11/20) 1 = some ((11/20) - (1 - 11/20) / 1) ∧
    kelly_fraction (2/5) 1 = some 0 :=
  ⟨(kelly_fraction_formula (11/20) 1 (by norm_num)).1 (by norm_num),
   (kelly_fraction_formula (2/5) 1 (by norm_num)).2 (by norm_num)⟩

/-- Claim C4 (failing input): the code performs no boundary validation.
With the out-of-domain probability 3/2 it computes and returns a normal
result instead of signalling an input-domain error. -/
theorem rbs_accepts_invalid_prob :
    recommended_bet_size (3/2) 100 1 1000 (1/2) = some (500, 2) := by
  have hb : american_to_net_odds 100 = some 1 := by
    rw [american_to_net_odds_pos 100 (by norm_num)]
    norm_num
  rw [recommended_bet_size_eq (3/2) 100 1 1000 (1/2) 1 hb (by norm_num)]
  norm_num [min_def, max_def]

/-- Claim C5: for valid inputs the returned stake lies between 0 and
`f * B`, and it is 0 whenever the bankroll or the max bet fraction is 0. -/
theorem rbs_stake_bounds (prob ml k B f : ℚ) (hml : ml ≠ 0) (hk : 0 ≤ k)
    (hB : 0 ≤ B) (hf : 0 ≤ f) :
    ∃ s kf, recommended_bet_size prob ml k B f = some (s, kf) ∧
      0 ≤ s ∧ s ≤ f * B ∧ ((B = 0 ∨ f = 0) → s = 0) := by
  obtain ⟨b, hb, hbpos⟩ := american_to_net_odds_some ml hml
  set kf := max 0 (prob - (1 - prob) / b) with hkf
  have hkf0 : 0 ≤ kf := le_max_left _ _
  refine ⟨min (k * kf * B) (f * B), kf,
    recommended_bet_size_eq prob ml k B f b hb hbpos.ne.symm, ?_, min_le_right _ _, ?_⟩
  · exact le_min (mul_nonneg (mul_nonneg hk hkf0) hB) (mul_nonneg hf hB)
  · rintro (rfl | rfl)
    · simp
    · rw [zero_mul]
      exact min_eq_right (mul_nonneg (mul_nonneg hk hkf0) hB)

/-- Witness for C5 at prob = 0.55, ml = +100, k = 1, B = 1000, f = 0.5. -/
theorem rbs_stake_bounds_witness :
    ∃ s kf, recommended_bet_size (11/20) 100 1 1000 (1/2) = some (s, kf) ∧
      0 ≤ s ∧ s ≤ (1/2) * 1000 ∧ (((1000:ℚ) = 0 ∨ (1/2:ℚ) = 0) → s = 0) :=
  rbs_stake_bounds (11/20) 100 1 1000 (1/2) (by norm_num) (by norm_num)
    (by norm_num) (by norm_num)

/-- Claim C6 (counterexample): at prob = 1, net odds 1, the Kelly fraction
is exactly 1, so the range `[0, 1)` stated by the claim is violated. -/
theorem kelly_fraction_one_not_lt_one :
    ∃ v, kelly_fraction 1 1 = some v ∧ ¬ v < 1 := by
  refine ⟨1, ?_, by norm_num⟩
  rw [kelly_fraction_of_ne 1 1 (by norm_num)]
  norm_num

/-- Claim C6 (amended): for prob in `[0,1]` and net odds `b > 0` the Kelly
fraction lies in `[0, 1]`, and it is strictly below 1 whenever prob < 1. -/
theorem kelly_fraction_range (p b : ℚ) (hp0 : 0 ≤ p) (hp1 : p ≤ 1)
    (hb : 0 < b) :
    ∃ v, kelly_fraction p b = some v ∧ 0 ≤ v ∧ v ≤ 1 ∧ (p < 1 → v < 1) := by
  have hdiv : 0 ≤ (1 - p) / b := div_nonneg (by linarith) hb.le
  refine ⟨max 0 (p - (1 - p) / b), kelly_fraction_of_ne _ _ hb.ne.symm,
    le_max_left _ _, ?_, ?_⟩
  · exact max_le (by norm_num) (by linarith)
  · intro hlt
    exact max_lt (by norm_num) (by linarith)

/-- Witness for C6 (amended) at p = 1/2, b = 1. -/
theorem kelly_fraction_range_witness :
    ∃ v, kelly_fraction (1/2) 1 = some v ∧ 0 ≤ v ∧ v ≤ 1 ∧
      ((1:ℚ)/2 < 1 → v < 1) :=
  kelly_fraction_range (1/2) 1 (by norm_num) (by norm_num) (by norm_num)

/-- Claim C7: at or below the break-even probability `1 / (1 + b)` the Kelly
fraction is exactly 0. -/
theorem kelly_fraction_breakeven_zero (p b : ℚ) (hb : 0 < b)
    (hp : p ≤ 1 / (1 + b)) :
    kelly_fraction p b = some 0 := by
  have h1b : 0 < 1 + b := by linarith
  have hmul : p * (1 + b) ≤ 1 := (le_div_iff₀ h1b).mp hp
  have hle : p ≤ (1 - p) / b := by
    rw [le_div_iff₀ hb]
    nlinarith
  rw [kelly_fraction_of_ne _ _ hb.ne.symm, max_eq_left (by linarith)]

/-- Witness for C7 at p = 0.4, b = 1 (break-even threshold 0.5). -/
theorem kelly_fraction_breakeven_zero_witness :
    kelly_fraction (2/5) 1 = some 0 :=
  kelly_fraction_breakeven_zero (2/5) 1 (by norm_num) (by norm_num)

/-- Claim C8: with everything but the bankroll fixed and the stake below the
cap, scaling the bankroll by any factor `lam ≥ 0` scales the stake by `lam`
and leaves the raw Kelly fraction unchanged. -/
theorem rbs_bankroll_scaling (prob ml k B f lam s kf : ℚ) (hml : ml ≠ 0)
    (hlam : 0 ≤ lam)
    (h : recommended_bet_size prob ml k B f = some (s, kf))
    (hcap : s < f * B) :
    recommended_bet_size prob ml k (lam * B) f = some (lam * s, kf) := by
  obtain ⟨b, hb, hbpos⟩ := american_to_net_odds_some ml hml
  rw [recommended_bet_size_eq prob ml k B f b hb hbpos.ne.symm] at h
  rw [recommended_bet_size_eq prob ml k (lam * B) f b hb hbpos.ne.symm]
  simp only [Option.some.injEq, Prod.mk.injEq] at h ⊢
  obtain ⟨hs, hkf⟩ := h
  refine ⟨?_, hkf⟩
  rw [← hs, mul_min_of_nonneg _ _ hlam]
  congr 1 <;> ring

/-- Witness for C8 at prob = 0.55, ml = +100, k = 1, B = 1000, f = 0.5,
lam = 2, where the uncapped stake is 100 < 500. -/
theorem rbs_bankroll_scaling_witness :
    recommended_bet_size (11/20) 100 1 (2 * 1000) (1/2) =
      some (2 * 100, 1/10) :=
  rbs_bankroll_scaling (11/20) 100 1 1000 (1/2) 2 100 (1/10) (by norm_num)
    (by norm_num)
    (by
      have hb : american_to_net_odds 100 = some 1 := by
        rw [american_to_net_odds_pos 100 (by norm_num)]
        norm_num
      rw [recommended_bet_size_eq (11/20) 100 1 1000 (1/2) 1 hb (by norm_num)]
      norm_num [min_def, max_def])
    (by norm_num)

/-- Claim C9: the two-sided calculation uses `1 - p` as the away probability
and consists of two independent `recommended_bet_size` calls, each with its
own moneyline and probability and the shared multiplier, bankroll and max
bet fraction. -/
theorem two_sided_independent_calls (hml aml k p B f : ℚ)
    (hh : hml ≠ 0) (ha : aml ≠ 0) :
    ∃ home away, recommended_bet_size p hml k B f = some home ∧
      recommended_bet_size (1 - p) aml k B f = some away ∧
      main_calc hml aml k p B f = some (home, away) := by
  obtain ⟨bh, hbh, hbhpos⟩ := american_to_net_odds_some hml hh
  obtain ⟨ba, hba, hbapos⟩ := american_to_net_odds_some aml ha
  refine ⟨_, _, recommended_bet_size_eq p hml k B f bh hbh hbhpos.ne.symm,
    recommended_bet_size_eq (1 - p) aml k B f ba hba hbapos.ne.symm, ?_⟩
  simp [main_calc, recommended_bet_size_eq p hml k B f bh hbh hbhpos.ne.symm,
    recommended_bet_size_eq (1 - p) aml k B f ba hba hbapos.ne.symm]

/-- Witness for C9 at home ml = +100, away ml = -110, k = 1, p = 0.5,
B = 2000, f = 0.1. -/
theorem two_sided_independent_calls_witness :
    ∃ home away, recommended_bet_size (1/2) 100 1 2000 (1/10) = some home ∧
      recommended_bet_size (1 - 1/2) (-110) 1 2000 (1/10) = some away ∧
      main_calc 100 (-110) 1 (1/2) 2000 (1/10) = some (home, away) :=
  two_sided_independent_calls 100 (-110) 1 (1/2) 2000 (1/10) (by norm_num)
    (by norm_num)

/-- Claim C10: for prob in `[0,1]` and net odds `b > 0` the Kelly fraction is
at most prob, so the uncapped stake `k * kf * B` never exceeds
`k * prob * B`. -/
theorem kelly_fraction_le_prob (p b k B : ℚ) (hp0 : 0 ≤ p) (hp1 : p ≤ 1)
    (hb : 0 < b) (hk : 0 ≤ k) (hB : 0 ≤ B) :
    ∃ kf, kelly_fraction p b = some kf ∧ kf ≤ p ∧ k * kf * B ≤ k * p * B := by
  have hdiv : 0 ≤ (1 - p) / b := div_nonneg (by linarith) hb.le
  have hkfle : max 0 (p - (1 - p) / b) ≤ p := max_le hp0 (by linarith)
  exact ⟨_, kelly_fraction_of_ne _ _ hb.ne.symm, hkfle,
    mul_le_mul_of_nonneg_right (mul_le_mul_of_nonneg_left hkfle hk) hB⟩

/-- Witness for C10 at p = 1/2, b = 1, k = 1, B = 1000. -/
theorem kelly_fraction_le_prob_witness :
    ∃ kf, kelly_fraction (1/2) 1 = some kf ∧ kf ≤ 1/2 ∧
      1 * kf * 1000 ≤ 1 * (1/2) * 1000 :=
  kelly_fraction_le_prob (1/2) 1 1 1000 (by norm_num) (by norm_num)
    (by norm_num) (by norm_num) (by norm_num)

end BetSizing
